import Mathlib

/-!
Shallow embedding of the Inventory Stock & Reservation Ledger of
`src/src/BusinessModel/models.py` (class `OrderDatabase`), together with
theorems settling the specification claims about it.

The ledger state is the content of the backing store's tables
(`inventory`, `reservations`, `stock_movements`) plus the store's
id generator for reservations.  Python `int` fields are modelled as `Int`
(the code performs signed arithmetic on them); the `price` float only ever
matters through sign comparisons here, so it is modelled as `Int` as well.
Timestamps are abstract minute counts (`Nat`); the code's
`datetime.now() + timedelta(minutes=15)` becomes `now + 15`.
-/

namespace Ledger

/-- A row of the `inventory` table, as built by `OrderDatabase.add_product`. -/
structure Product where
  product_id : String
  name : String
  description : String
  price : Int
  category : String
  stock_quantity : Int
  reserved_quantity : Int
  low_stock_threshold : Int
  is_active : Bool
deriving Repr, DecidableEq

/-- A row of the `reservations` table, as built by `OrderDatabase.reserve_stock`. -/
structure Reservation where
  id : Nat
  product_id : String
  customer_id : String
  quantity : Int
  status : String
  expires_at : Nat
  created_at : Nat
deriving Repr, DecidableEq

/-- A row of the `stock_movements` audit table, as built by
`OrderDatabase.log_stock_movement`. -/
structure StockMovement where
  product_id : String
  quantity_change : Int
  reason : String
  previous_stock : Int
  new_stock : Int
deriving Repr, DecidableEq

/-- The backing store's state: the three tables the ledger touches, plus the
store's generated-id counter for reservation rows. -/
structure DB where
  inventory : List Product
  reservations : List Reservation
  stock_movements : List StockMovement
  next_reservation_id : Nat
deriving Repr, DecidableEq

/-- Point read `select("*").eq("product_id", pid)` followed by taking
`result.data[0]`: the first inventory row whose key matches. -/
def findProduct (st : DB) (pid : String) : Option Product :=
  st.inventory.find? (fun p => p.product_id == pid)

/-- Point read `select("*").eq("id", rid)` on the `reservations` table,
followed by taking `reservation.data[0]`. -/
def findReservation (st : DB) (rid : Nat) : Option Reservation :=
  st.reservations.find? (fun r => r.id == rid)

/-! ### get_product -/

/-- The success dictionary returned by `OrderDatabase.get_product`. -/
structure ProductView where
  product_id : String
  name : String
  description : String
  price : Int
  category : String
  stock_quantity : Int
  reserved_quantity : Int
  available_quantity : Int
  is_in_stock : Bool
  is_low_stock : Bool
  low_stock_threshold : Int
  is_active : Bool
deriving Repr, DecidableEq

/-- Body of `get_product`'s success branch: derived fields computed from the
stored row (`available = stock_quantity - reserved_quantity`, and so on). -/
def viewOf (p : Product) : ProductView :=
  let available := p.stock_quantity - p.reserved_quantity
  { product_id := p.product_id
    name := p.name
    description := p.description
    price := p.price
    category := p.category
    stock_quantity := p.stock_quantity
    reserved_quantity := p.reserved_quantity
    available_quantity := available
    is_in_stock := decide (0 < available)
    is_low_stock := decide (available ≤ p.low_stock_threshold)
    low_stock_threshold := p.low_stock_threshold
    is_active := p.is_active }

inductive GetProductResult where
  /-- Success dictionary with the full record and derived fields. -/
  | ok (view : ProductView)
  /-- Failure with error string "Product not found". -/
  | notFound
deriving Repr, DecidableEq

/-- Models `OrderDatabase.get_product` (models.py lines 384-425).  Read-only;
note there is no `is_active` filter on this path. -/
def get_product (st : DB) (pid : String) : GetProductResult :=
  match findProduct st pid with
  | some p => .ok (viewOf p)
  | none => .notFound

/-! ### add_product -/

/-- Modelled from the spec: the backing store's `inventory` table schema is not
in the repository; per the spec the store enforces a unique key on the product
identifier ("Fails with `Conflict` if `id` already exists") and — when
`priceCheck` is set — the non-negative-price constraint ("enforced by the
backing store's constraint").  A `none` result models the store raising an
exception on insert, which `add_product` catches. -/
def storeInsertProduct (priceCheck : Bool) (st : DB) (p : Product) : Option DB :=
  if st.inventory.any (fun q => q.product_id == p.product_id) then none
  else if priceCheck && decide (p.price < 0) then none
  else some { st with inventory := st.inventory ++ [p] }

inductive AddProductResult where
  /-- Success dictionary carrying the stored record. -/
  | ok (p : Product)
  /-- Failure dictionary carrying the store's exception text: the store raised
  on insert and `add_product` caught it. -/
  | storeError
deriving Repr, DecidableEq

/-- Models `OrderDatabase.add_product` (models.py lines 340-382).  The Python
body performs no validation of its own: it builds the row (with
`reserved_quantity = 0`, `is_active = True`) and inserts it, translating any
store exception into a generic failure. -/
def add_product (priceCheck : Bool) (st : DB) (pid nm descr : String) (price : Int)
    (category : String) (stock thr : Int) : AddProductResult × DB :=
  let p : Product :=
    { product_id := pid, name := nm, description := descr, price := price,
      category := category, stock_quantity := stock, reserved_quantity := 0,
      low_stock_threshold := thr, is_active := true }
  match storeInsertProduct priceCheck st p with
  | some st1 => (.ok p, st1)
  | none => (.storeError, st)

/-! ### update_stock and the audit log -/

/-- Models `OrderDatabase.log_stock_movement` (models.py lines 673-707).
`auditOk` says whether the store accepts the `stock_movements` insert; on
failure the method catches the exception and returns a failure dictionary,
leaving the state unchanged. -/
def log_stock_movement (auditOk : Bool) (st : DB) (pid : String) (change : Int)
    (reason : String) (prev next : Int) : Bool × DB :=
  if auditOk then
    (true, { st with stock_movements := st.stock_movements ++
      [{ product_id := pid, quantity_change := change, reason := reason,
         previous_stock := prev, new_stock := next }] })
  else (false, st)

inductive UpdateStockResult where
  /-- Success dictionary carrying product id, previous stock, new stock and
  the change amount. -/
  | ok (pid : String) (previous_stock new_stock change : Int)
  /-- Failure with error string "Product not found". -/
  | productNotFound
  /-- Failure with error string "Insufficient stock". -/
  | insufficientStock
deriving Repr, DecidableEq

/-- Bulk write `update(...).eq("product_id", pid)` on `inventory`: sets the
stock of every row whose key matches. -/
def updateStockRows (st : DB) (pid : String) (newStock : Int) : DB :=
  { st with inventory := st.inventory.map (fun p =>
      if p.product_id == pid then { p with stock_quantity := newStock } else p) }

/-- Models `OrderDatabase.update_stock` (models.py lines 475-527).  Reads the
product through `get_product`, checks only `new_stock < 0` (total stock, not
available stock), writes the new total, then calls `log_stock_movement` and
ignores its return value. -/
def update_stock (auditOk : Bool) (st : DB) (pid : String) (delta : Int)
    (reason : String) : UpdateStockResult × DB :=
  match get_product st pid with
  | .notFound => (.productNotFound, st)
  | .ok view =>
    let current := view.stock_quantity
    let newStock := current + delta
    if newStock < 0 then (.insufficientStock, st)
    else
      let st1 := updateStockRows st pid newStock
      let st2 := (log_stock_movement auditOk st1 pid delta reason current newStock).2
      (.ok pid current newStock delta, st2)

/-! ### reserve_stock -/

inductive ReserveStockResult where
  /-- Success dictionary carrying reservation id, product id, quantity and
  expiry time. -/
  | ok (reservation_id : Nat) (pid : String) (quantity : Int) (expires_at : Nat)
  /-- Failure with error string "Product not found". -/
  | productNotFound
  /-- Failure whose error string reports both the available and the requested
  quantity. -/
  | insufficientStock (available requested : Int)
deriving Repr, DecidableEq

/-- Bulk write `update(...).eq("product_id", pid)` on `inventory`: sets the
reserved quantity of every row whose key matches. -/
def updateReservedRows (st : DB) (pid : String) (newReserved : Int) : DB :=
  { st with inventory := st.inventory.map (fun p =>
      if p.product_id == pid then { p with reserved_quantity := newReserved } else p) }

/-- Models `OrderDatabase.reserve_stock` (models.py lines 529-591).  Note the
Python body performs no `quantity <= 0` validation: the only guard is
`available < quantity`. -/
def reserve_stock (now : Nat) (st : DB) (pid : String) (quantity : Int)
    (customer_id : String) : ReserveStockResult × DB :=
  match get_product st pid with
  | .notFound => (.productNotFound, st)
  | .ok view =>
    let available := view.available_quantity
    if available < quantity then (.insufficientStock available quantity, st)
    else
      let newReserved := view.reserved_quantity + quantity
      let st1 := updateReservedRows st pid newReserved
      let rid := st1.next_reservation_id
      let res : Reservation :=
        { id := rid, product_id := pid, customer_id := customer_id,
          quantity := quantity, status := "active", expires_at := now + 15,
          created_at := now }
      let st2 := { st1 with reservations := st1.reservations ++ [res]
                            next_reservation_id := rid + 1 }
      (.ok rid pid quantity (now + 15), st2)

/-! ### release_reservation -/

inductive ReleaseResult where
  /-- Success dictionary with message "Reservation released successfully". -/
  | ok
  /-- Failure with error string "Reservation not found". -/
  | reservationNotFound
  /-- Failure with error string "Reservation already released". -/
  | alreadyReleased
  /-- Failure with error string "Product not found". -/
  | productNotFound
deriving Repr, DecidableEq

/-- Models `OrderDatabase.release_reservation` (models.py lines 593-643). -/
def release_reservation (st : DB) (rid : Nat) : ReleaseResult × DB :=
  match findReservation st rid with
  | none => (.reservationNotFound, st)
  | some r =>
    if r.status != "active" then (.alreadyReleased, st)
    else
      match findProduct st r.product_id with
      | none => (.productNotFound, st)
      | some p =>
        let newReserved := max 0 (p.reserved_quantity - r.quantity)
        let st1 := updateReservedRows st r.product_id newReserved
        let st2 := { st1 with reservations := st1.reservations.map (fun q =>
          if q.id == rid then { q with status := "released" } else q) }
        (.ok, st2)

/-! ### search_products -/

/-- One element of the `products` list returned by `search_products`. -/
structure ProductSummary where
  product_id : String
  name : String
  price : Int
  category : String
  available_quantity : Int
  is_in_stock : Bool
deriving Repr, DecidableEq

/-- The summary dictionary `search_products` builds for each row. -/
def summaryOf (p : Product) : ProductSummary :=
  let available := p.stock_quantity - p.reserved_quantity
  { product_id := p.product_id, name := p.name, price := p.price,
    category := p.category, available_quantity := available,
    is_in_stock := decide (0 < available) }

/-- Tests whether the first character list starts with the second. -/
def startsWithSeq : List Char → List Char → Bool
  | _, [] => true
  | [], _ :: _ => false
  | a :: as, b :: bs => a == b && startsWithSeq as bs

/-- Tests whether the first character list contains the second as a
contiguous run. -/
def containsSeq : List Char → List Char → Bool
  | [], needle => needle.isEmpty
  | a :: as, needle => startsWithSeq (a :: as) needle || containsSeq as needle

/-- Modelled from the spec: the store's `ilike("name", "%term%")` scan is a
case-insensitive substring match on the name (spec §6: "filtered scan (by
name substring, ...)"). -/
def nameMatchesCI (nm term : String) : Bool :=
  containsSeq nm.toLower.toList term.toLower.toList

/-- Python truthiness of an optional-string argument: `if search_term:` is
false both for `None` and for the empty string. -/
def truthy : Option String → Bool
  | none => false
  | some s => !s.isEmpty

/-- Models `OrderDatabase.search_products` (models.py lines 427-473).  Builds
a conjunction of filters — name substring (if the argument is truthy),
category equality (if truthy), raw `stock_quantity > 0` (if `in_stock_only`),
and always `is_active == True` — then maps the rows to summaries.  The Python
method never fails: an empty result is success with an empty list, so the
model is a total function. -/
def search_products (st : DB) (term category : Option String)
    (in_stock_only : Bool) : List ProductSummary :=
  (st.inventory.filter (fun p =>
      (if truthy term then nameMatchesCI p.name (term.getD "") else true) &&
      (if truthy category then p.category == category.getD "" else true) &&
      (if in_stock_only then decide (0 < p.stock_quantity) else true) &&
      p.is_active)).map summaryOf

/-! ### get_low_stock_products -/

/-- One element of the list returned by `get_low_stock_products`. -/
structure LowStockEntry where
  product_id : String
  name : String
  available_quantity : Int
  threshold : Int
deriving Repr, DecidableEq

/-- The entry dictionary `get_low_stock_products` builds for each low row. -/
def lowStockEntryOf (p : Product) : LowStockEntry :=
  { product_id := p.product_id, name := p.name,
    available_quantity := p.stock_quantity - p.reserved_quantity,
    threshold := p.low_stock_threshold }

/-- Models `OrderDatabase.get_low_stock_products` (models.py lines 645-671):
scans the active rows and keeps those with `available <= low_stock_threshold`. -/
def get_low_stock_products (st : DB) : List LowStockEntry :=
  (st.inventory.filter (fun p => p.is_active)).filterMap (fun p =>
    if p.stock_quantity - p.reserved_quantity ≤ p.low_stock_threshold then
      some (lowStockEntryOf p)
    else none)

/-! ### Operation sequences

For claims quantifying over "every sequence of ledger operations" we package
the four mutating operations into an inductive and fold them over a state. -/

/-- One mutating ledger operation together with its arguments. -/
inductive Op where
  | add (pid nm descr : String) (price : Int) (category : String) (stock thr : Int)
  | upd (pid : String) (delta : Int) (reason : String)
  | reserve (pid : String) (quantity : Int) (customer_id : String)
  | release (rid : Nat)
deriving Repr, DecidableEq

/-- Applies one operation to the store state, discarding the caller-visible
result.  `priceCheck` and `auditOk` fix the store's behavior, `now` the clock. -/
def applyOp (priceCheck auditOk : Bool) (now : Nat) (st : DB) : Op → DB
  | .add pid nm descr price category stock thr =>
      (add_product priceCheck st pid nm descr price category stock thr).2
  | .upd pid delta reason => (update_stock auditOk st pid delta reason).2
  | .reserve pid q cust => (reserve_stock now st pid q cust).2
  | .release rid => (release_reservation st rid).2

/-- Folds a list of operations over a state. -/
def runOps (priceCheck auditOk : Bool) (now : Nat) (st : DB) (ops : List Op) : DB :=
  ops.foldl (applyOp priceCheck auditOk now) st

/-- Nonnegativity of both counters of every product, the part of the spec's
counter invariant that the code actually maintains. -/
def countersNonneg (st : DB) : Prop :=
  ∀ p ∈ st.inventory, 0 ≤ p.stock_quantity ∧ 0 ≤ p.reserved_quantity

instance (st : DB) : Decidable (countersNonneg st) := by
  unfold countersNonneg; infer_instance

/-- Well-behaved call: `add_product` is given a nonnegative initial stock and
`reserve_stock` a positive quantity (the inputs the spec's data model admits:
`stock_quantity` ≥ 0, reservation quantity ≥ 1). -/
def goodOp : Op → Bool
  | .add _ _ _ _ _ stock _ => decide (0 ≤ stock)
  | .reserve _ q _ => decide (0 < q)
  | _ => true

/-! ### Sample states used by concrete witnesses and counterexamples -/

/-- An empty store. -/
def emptyDB : DB := { inventory := [], reservations := [], stock_movements := [],
                      next_reservation_id := 1 }

/-- A sample active product with stock 10 and nothing reserved. -/
def sampleProduct : Product :=
  { product_id := "P", name := "Widget", description := "a widget", price := 5,
    category := "tools", stock_quantity := 10, reserved_quantity := 0,
    low_stock_threshold := 3, is_active := true }

/-- A store holding just `sampleProduct`. -/
def sampleDB : DB := { inventory := [sampleProduct], reservations := [],
                       stock_movements := [], next_reservation_id := 1 }

/-- A sample deactivated product. -/
def inactiveProduct : Product :=
  { product_id := "Q", name := "Gadget", description := "a gadget", price := 7,
    category := "tools", stock_quantity := 2, reserved_quantity := 0,
    low_stock_threshold := 5, is_active := false }

/-- A store holding just `inactiveProduct`. -/
def inactiveDB : DB := { inventory := [inactiveProduct], reservations := [],
                         stock_movements := [], next_reservation_id := 1 }

/-- A sample active reservation of 4 units of `sampleProduct` held by customer
C, in a store where 4 units are reserved. -/
def sampleReservation : Reservation :=
  { id := 7, product_id := "P", customer_id := "C", quantity := 4,
    status := "active", expires_at := 15, created_at := 0 }

/-- A store where customer C holds `sampleReservation` on `sampleProduct`. -/
def reservedDB : DB :=
  { inventory := [{ sampleProduct with reserved_quantity := 4 }],
    reservations := [sampleReservation], stock_movements := [],
    next_reservation_id := 8 }

/-! ### Helper lemmas -/

/-- Mapping a function that does not change a row's key commutes with the
keyed point read. -/
theorem find?_map_comm {α : Type} (f : α → α) (pr : α → Bool)
    (hcomm : ∀ a, pr (f a) = pr a) (l : List α) :
    (l.map f).find? pr = (l.find? pr).map f := by
  induction l with
  | nil => rfl
  | cons a as ih =>
    cases h : pr a with
    | true =>
      rw [List.map_cons, List.find?_cons_of_pos _ (by rw [hcomm]; exact h),
        List.find?_cons_of_pos _ h, Option.map_some']
    | false =>
      rw [List.map_cons, List.find?_cons_of_neg _ (by rw [hcomm]; simp [h]),
        List.find?_cons_of_neg _ (by simp [h])]
      exact ih

/-- After `updateStockRows`, the keyed read returns the row with its stock
replaced. -/
theorem findProduct_updateStockRows {st : DB} {pid : String} {p : Product} (v : Int)
    (hp : findProduct st pid = some p) :
    findProduct (updateStockRows st pid v) pid =
      some { p with stock_quantity := v } := by
  have hkey : ∀ a : Product,
      (((if a.product_id == pid then { a with stock_quantity := v } else a)).product_id
        == pid) = (a.product_id == pid) := by
    intro a; split <;> rfl
  unfold findProduct at hp ⊢
  unfold updateStockRows
  rw [find?_map_comm _ _ hkey, hp, Option.map_some']
  have hfound := List.find?_some hp
  simp only at hfound
  simp [hfound]

/-- After `updateReservedRows`, the keyed read returns the row with its
reserved quantity replaced. -/
theorem findProduct_updateReservedRows {st : DB} {pid : String} {p : Product} (v : Int)
    (hp : findProduct st pid = some p) :
    findProduct (updateReservedRows st pid v) pid =
      some { p with reserved_quantity := v } := by
  have hkey : ∀ a : Product,
      (((if a.product_id == pid then { a with reserved_quantity := v } else a)).product_id
        == pid) = (a.product_id == pid) := by
    intro a; split <;> rfl
  unfold findProduct at hp ⊢
  unfold updateReservedRows
  rw [find?_map_comm _ _ hkey, hp, Option.map_some']
  have hfound := List.find?_some hp
  simp only at hfound
  simp [hfound]

theorem viewOf_stock (p : Product) : (viewOf p).stock_quantity = p.stock_quantity := rfl

theorem viewOf_reserved (p : Product) :
    (viewOf p).reserved_quantity = p.reserved_quantity := rfl

theorem viewOf_available (p : Product) :
    (viewOf p).available_quantity = p.stock_quantity - p.reserved_quantity := rfl

/-- A successful store insert appends the row and changes nothing else. -/
theorem storeInsertProduct_some {priceCheck : Bool} {st : DB} {p : Product} {st1 : DB}
    (h : storeInsertProduct priceCheck st p = some st1) :
    st1 = { st with inventory := st.inventory ++ [p] } := by
  unfold storeInsertProduct at h
  split at h
  · simp at h
  · split at h
    · simp at h
    · exact (Option.some.inj h).symm

/-- The audit write only ever touches the `stock_movements` table. -/
theorem log_stock_movement_inventory (auditOk : Bool) (st : DB) (pid : String)
    (c : Int) (r : String) (a b : Int) :
    (log_stock_movement auditOk st pid c r a b).2.inventory = st.inventory := by
  unfold log_stock_movement; split <;> rfl

theorem log_stock_movement_reservations (auditOk : Bool) (st : DB) (pid : String)
    (c : Int) (r : String) (a b : Int) :
    (log_stock_movement auditOk st pid c r a b).2.reservations = st.reservations := by
  unfold log_stock_movement; split <;> rfl

/-- Each single ledger operation preserves nonnegativity of both counters,
provided `add_product` receives a nonnegative stock and `reserve_stock` a
positive quantity. -/
theorem countersNonneg_applyOp (priceCheck auditOk : Bool) (now : Nat) (st : DB)
    (op : Op) (hst : countersNonneg st) (hop : goodOp op = true) :
    countersNonneg (applyOp priceCheck auditOk now st op) := by
  cases op with
  | add pid nm descr price category stock thr =>
    intro q hq
    simp only [applyOp, add_product] at hq
    rcases hins : storeInsertProduct priceCheck st
        { product_id := pid, name := nm, description := descr, price := price,
          category := category, stock_quantity := stock, reserved_quantity := 0,
          low_stock_threshold := thr, is_active := true } with _ | st1
    · rw [hins] at hq; exact hst q hq
    · rw [hins] at hq
      rw [storeInsertProduct_some hins] at hq
      simp only [List.mem_append, List.mem_singleton] at hq
      rcases hq with hq | rfl
      · exact hst q hq
      · refine ⟨?_, le_refl 0⟩
        simpa [goodOp] using hop
  | upd pid delta reason =>
    intro q hq
    simp only [applyOp, update_stock] at hq
    rcases hfp : findProduct st pid with _ | p0
    · simp only [get_product, hfp] at hq; exact hst q hq
    · simp only [get_product, hfp] at hq
      by_cases hneg : (viewOf p0).stock_quantity + delta < 0
      · rw [if_pos hneg] at hq; exact hst q hq
      · rw [if_neg hneg] at hq
        rw [log_stock_movement_inventory] at hq
        simp only [updateStockRows, List.mem_map] at hq
        rcases hq with ⟨a, ha, rfl⟩
        by_cases hk : (a.product_id == pid) = true
        · simp only [hk, if_true]
          refine ⟨?_, (hst a ha).2⟩
          simp only [viewOf_stock] at hneg ⊢
          omega
        · simp only [hk, if_false]
          exact hst a ha
  | reserve pid quantity cust =>
    intro q hq
    simp only [applyOp, reserve_stock] at hq
    rcases hfp : findProduct st pid with _ | p0
    · simp only [get_product, hfp] at hq; exact hst q hq
    · simp only [get_product, hfp] at hq
      by_cases hlt : (viewOf p0).available_quantity < quantity
      · rw [if_pos hlt] at hq; exact hst q hq
      · rw [if_neg hlt] at hq
        simp only [updateReservedRows, List.mem_map] at hq
        rcases hq with ⟨a, ha, rfl⟩
        have hq0 : (0 : Int) < quantity := by simpa [goodOp] using hop
        have hp0 : p0 ∈ st.inventory := List.mem_of_find?_eq_some hfp
        by_cases hk : (a.product_id == pid) = true
        · simp only [hk, if_true]
          refine ⟨(hst a ha).1, ?_⟩
          rw [viewOf_reserved]
          have := (hst p0 hp0).2
          omega
        · simp only [hk, if_false]
          exact hst a ha
  | release rid =>
    intro q hq
    simp only [applyOp, release_reservation] at hq
    rcases hfr : findReservation st rid with _ | r
    · simp only [hfr] at hq; exact hst q hq
    · simp only [hfr] at hq
      by_cases hact : (r.status != "active") = true
      · rw [if_pos hact] at hq; exact hst q hq
      · rw [if_neg hact] at hq
        rcases hfp : findProduct st r.product_id with _ | p0
        · simp only [hfp] at hq; exact hst q hq
        · simp only [hfp] at hq
          simp only [updateReservedRows, List.mem_map] at hq
          rcases hq with ⟨a, ha, rfl⟩
          by_cases hk : (a.product_id == r.product_id) = true
          · simp only [hk, if_true]
            exact ⟨(hst a ha).1, le_max_left 0 _⟩
          · simp only [hk, if_false]
            exact hst a ha

/-- C1, corrected.  The claimed invariant `0 ≤ reserved_quantity ≤
stock_quantity` does not hold over all operation sequences (see
`c1_counterexample`); what the code does maintain is nonnegativity of both
counters: starting from a state whose counters are nonnegative, any sequence
of `add_product` (with nonnegative initial stock), `update_stock`,
`reserve_stock` (with positive quantity) and `release_reservation` calls
leaves every product with `0 ≤ stock_quantity` and `0 ≤ reserved_quantity`. -/
theorem c1_counters_nonneg (priceCheck auditOk : Bool) (now : Nat) (st : DB)
    (ops : List Op) (hst : countersNonneg st)
    (hops : ∀ op ∈ ops, goodOp op = true) :
    countersNonneg (runOps priceCheck auditOk now st ops) := by
  induction ops generalizing st with
  | nil => exact hst
  | cons op rest ih =>
    rw [runOps, List.foldl_cons]
    exact ih (applyOp priceCheck auditOk now st op)
      (countersNonneg_applyOp priceCheck auditOk now st op hst (hops op (.head _)))
      (fun o ho => hops o (.tail _ ho))

/-- A well-behaved operation sequence: create P with stock 10, reserve 3,
remove 2 units, release the reservation. -/
def c1GoodOps : List Op :=
  [.add "P" "Widget" "w" 5 "tools" 10 3, .reserve "P" 3 "C",
   .upd "P" (-2) "sale", .release 1]

theorem c1_counters_nonneg_witness :
    countersNonneg (runOps true true 0 emptyDB c1GoodOps) :=
  c1_counters_nonneg true true 0 emptyDB c1GoodOps (by decide) (by decide)

/-- An operation sequence breaking the claimed invariant: create P with stock
10, reserve 3, then remove 8 units.  `update_stock` checks the delta only
against total stock (not available stock), so it succeeds and leaves
`stock_quantity = 2 < 3 = reserved_quantity`. -/
def c1BadOps : List Op :=
  [.add "P" "Widget" "w" 5 "tools" 10 3, .reserve "P" 3 "C", .upd "P" (-8) "shrink"]

/-- C1, counterexample: after the sequence `c1BadOps` the product's counters
violate `reserved_quantity ≤ stock_quantity`. -/
theorem c1_counterexample :
    ∃ p ∈ (runOps true true 0 emptyDB c1BadOps).inventory,
      p.stock_quantity < p.reserved_quantity := by decide

/-- C2, code bug.  The spec requires `reserve_stock` to fail with
`InvalidArgument` when `quantity ≤ 0` and the repository's own test
(`test_reserve_zero_quantity`) expects the quantity-0 call to fail, but the
code has no such validation: on a product with available stock 10, reserving
quantity 0 succeeds and inserts an active quantity-0 reservation, and
reserving quantity -3 succeeds and drives `reserved_quantity` negative. -/
theorem c2_reserve_nonpositive_eval :
    (reserve_stock 0 sampleDB "P" 0 "C").1 = .ok 1 "P" 0 15 ∧
    (reserve_stock 0 sampleDB "P" 0 "C").2.reservations =
      [{ id := 1, product_id := "P", customer_id := "C", quantity := 0,
         status := "active", expires_at := 15, created_at := 0 }] ∧
    findProduct (reserve_stock 0 sampleDB "P" (-3) "C").2 "P" =
      some { sampleProduct with reserved_quantity := -3 } := by decide

/-- C3, counterexample: the Ledger performs no price validation of its own.
Against a backing store without the price constraint (`priceCheck = false`),
`add_product` with price -5 succeeds and creates the record, so the claimed
store-independent `InvalidArgument` failure does not exist in the code. -/
theorem c3_counterexample :
    (add_product false emptyDB "N" "Neg" "neg" (-5) "misc" 10 10).1 =
      .ok { product_id := "N", name := "Neg", description := "neg", price := -5,
            category := "misc", stock_quantity := 10, reserved_quantity := 0,
            low_stock_threshold := 10, is_active := true } ∧
    (add_product false emptyDB "N" "Neg" "neg" (-5) "misc" 10 10).2.inventory =
      [{ product_id := "N", name := "Neg", description := "neg", price := -5,
         category := "misc", stock_quantity := 10, reserved_quantity := 0,
         low_stock_threshold := 10, is_active := true }] := by decide

/-- C3, corrected: with a backing store that enforces the non-negative-price
constraint (`priceCheck = true`), `add_product` with a negative price fails
(with the store's error, surfaced as a generic failure, not a Ledger-issued
`InvalidArgument`) and creates no record. -/
theorem c3_negative_price_store_checked (st : DB) (pid nm descr : String)
    (price : Int) (category : String) (stock thr : Int) (hprice : price < 0) :
    add_product true st pid nm descr price category stock thr =
      (.storeError, st) := by
  by_cases hdup : (st.inventory.any (fun q => q.product_id == pid)) = true
  · simp [add_product, storeInsertProduct, hdup]
  · simp [add_product, storeInsertProduct, hdup, hprice]

theorem c3_negative_price_store_checked_witness :
    add_product true emptyDB "N" "Neg" "neg" (-5) "misc" 10 10 =
      (.storeError, emptyDB) :=
  c3_negative_price_store_checked emptyDB "N" "Neg" "neg" (-5) "misc" 10 10
    (by decide)

/-- C4, confirmed.  For an existing product with stock `s` and any delta `d`:
if `s + d < 0`, `update_stock` fails with the insufficient-stock error and the
whole state is unchanged; otherwise it succeeds, sets the product's stock to
exactly `s + d`, appends exactly one audit record capturing delta, reason,
previous and new stock, leaves the reservations untouched, and returns
previous stock, new stock and delta.  The guard compares `s + d` — total
stock — with zero; `reserved_quantity` plays no part in it. -/
theorem c4_update_stock (st : DB) (pid : String) (p : Product) (d : Int)
    (rsn : String) (hp : findProduct st pid = some p) :
    (p.stock_quantity + d < 0 →
      update_stock true st pid d rsn = (.insufficientStock, st)) ∧
    (0 ≤ p.stock_quantity + d →
      (update_stock true st pid d rsn).1 =
        .ok pid p.stock_quantity (p.stock_quantity + d) d ∧
      findProduct (update_stock true st pid d rsn).2 pid =
        some { p with stock_quantity := p.stock_quantity + d } ∧
      (update_stock true st pid d rsn).2.stock_movements =
        st.stock_movements ++
          [{ product_id := pid, quantity_change := d, reason := rsn,
             previous_stock := p.stock_quantity, new_stock := p.stock_quantity + d }] ∧
      (update_stock true st pid d rsn).2.reservations = st.reservations) := by
  constructor
  · intro hneg
    simp only [update_stock, get_product, hp, viewOf_stock]
    rw [if_pos hneg]
  · intro hnn
    have hcond : ¬ p.stock_quantity + d < 0 := by omega
    have h2 := findProduct_updateStockRows (p.stock_quantity + d) hp
    refine ⟨?_, ?_, ?_, ?_⟩
    · simp only [update_stock, get_product, hp, viewOf_stock]
      rw [if_neg hcond]
    · simp only [update_stock, get_product, hp, viewOf_stock]
      rw [if_neg hcond]
      simpa [log_stock_movement, updateStockRows, findProduct] using h2
    · simp only [update_stock, get_product, hp, viewOf_stock]
      rw [if_neg hcond]
      simp [log_stock_movement, updateStockRows]
    · simp only [update_stock, get_product, hp, viewOf_stock]
      rw [if_neg hcond]
      simp [log_stock_movement, updateStockRows]

theorem c4_update_stock_witness :
    (update_stock true sampleDB "P" 5 "restock").1 = .ok "P" 10 15 5 ∧
    findProduct (update_stock true sampleDB "P" 5 "restock").2 "P" =
      some { sampleProduct with stock_quantity := 15 } := by
  have h := (c4_update_stock sampleDB "P" sampleProduct 5 "restock"
    (by decide)).2 (by decide)
  exact ⟨h.1, h.2.1⟩

/-- C5, confirmed.  For an existing product with available quantity
`a = stock_quantity - reserved_quantity` and any requested quantity `q`: if
`a < q`, `reserve_stock` fails reporting both the available and the requested
value and leaves the whole state unchanged; if `a ≥ q`, it succeeds,
increments the product's `reserved_quantity` by exactly `q`, appends a
reservation row with status "active" and expiry 15 minutes after creation,
touches no other table, and returns the reservation id, product id, quantity
and expiry. -/
theorem c5_reserve_stock (now : Nat) (st : DB) (pid : String) (p : Product)
    (q : Int) (cust : String) (hp : findProduct st pid = some p) :
    (p.stock_quantity - p.reserved_quantity < q →
      reserve_stock now st pid q cust =
        (.insufficientStock (p.stock_quantity - p.reserved_quantity) q, st)) ∧
    (q ≤ p.stock_quantity - p.reserved_quantity →
      (reserve_stock now st pid q cust).1 =
        .ok st.next_reservation_id pid q (now + 15) ∧
      findProduct (reserve_stock now st pid q cust).2 pid =
        some { p with reserved_quantity := p.reserved_quantity + q } ∧
      (reserve_stock now st pid q cust).2.reservations =
        st.reservations ++
          [{ id := st.next_reservation_id, product_id := pid, customer_id := cust,
             quantity := q, status := "active", expires_at := now + 15,
             created_at := now }] ∧
      (reserve_stock now st pid q cust).2.stock_movements = st.stock_movements ∧
      (reserve_stock now st pid q cust).2.next_reservation_id =
        st.next_reservation_id + 1) := by
  constructor
  · intro hlt
    have hcond : (viewOf p).available_quantity < q := by
      simpa [viewOf_available] using hlt
    simp only [reserve_stock, get_product, hp]
    rw [if_pos hcond, viewOf_available]
  · intro hge
    have hcond : ¬ p.stock_quantity - p.reserved_quantity < q := by omega
    have h2 := findProduct_updateReservedRows (p.reserved_quantity + q) hp
    refine ⟨?_, ?_, ?_, ?_, ?_⟩
    · simp only [reserve_stock, get_product, hp, viewOf_available, viewOf_reserved]
      rw [if_neg hcond]
      simp [updateReservedRows]
    · simp only [reserve_stock, get_product, hp, viewOf_available, viewOf_reserved]
      rw [if_neg hcond]
      simpa [updateReservedRows, findProduct] using h2
    · simp only [reserve_stock, get_product, hp, viewOf_available, viewOf_reserved]
      rw [if_neg hcond]
      simp [updateReservedRows]
    · simp only [reserve_stock, get_product, hp, viewOf_available, viewOf_reserved]
      rw [if_neg hcond]
      simp [updateReservedRows]
    · simp only [reserve_stock, get_product, hp, viewOf_available, viewOf_reserved]
      rw [if_neg hcond]
      simp [updateReservedRows]

theorem c5_reserve_stock_witness :
    (reserve_stock 0 sampleDB "P" 4 "C").1 = .ok 1 "P" 4 15 ∧
    findProduct (reserve_stock 0 sampleDB "P" 4 "C").2 "P" =
      some { sampleProduct with reserved_quantity := 4 } ∧
    (reserve_stock 0 sampleDB "P" 20 "C") =
      (.insufficientStock 10 20, sampleDB) := by
  have h := c5_reserve_stock 0 sampleDB "P" sampleProduct 4 "C" (by decide)
  have hfail := (c5_reserve_stock 0 sampleDB "P" sampleProduct 20 "C"
    (by decide)).1 (by decide)
  have hsucc := h.2 (by decide)
  exact ⟨hsucc.1, hsucc.2.1, hfail⟩

/-- C7, counterexample.  When the audit write fails after a successful stock
mutation (`auditOk = false`), `update_stock` still reports plain success with
the new stock, and its caller-visible result is byte-for-byte identical to
the one returned when the audit write succeeds: no warning of any kind
reaches the caller, so the audit failure is silently dropped, not reported on
a distinct warning channel as the claim states. -/
theorem c7_counterexample :
    (update_stock false sampleDB "P" 5 "restock").1 = .ok "P" 10 15 5 ∧
    (update_stock false sampleDB "P" 5 "restock").1 =
      (update_stock true sampleDB "P" 5 "restock").1 ∧
    (update_stock false sampleDB "P" 5 "restock").2.stock_movements = [] := by
  decide

/-- C7, corrected.  A failed audit write never rolls back or fails the stock
mutation: `update_stock` still reports success with the new stock and the
stock change stands; but nothing is reported to the caller either — the
result is exactly the result of the audit-success run, and the audit record
is simply missing. -/
theorem c7_audit_failure_silent (st : DB) (pid : String) (p : Product) (d : Int)
    (rsn : String) (hp : findProduct st pid = some p)
    (hnn : 0 ≤ p.stock_quantity + d) :
    (update_stock false st pid d rsn).1 =
      .ok pid p.stock_quantity (p.stock_quantity + d) d ∧
    findProduct (update_stock false st pid d rsn).2 pid =
      some { p with stock_quantity := p.stock_quantity + d } ∧
    (update_stock false st pid d rsn).2.stock_movements = st.stock_movements ∧
    (update_stock false st pid d rsn).1 = (update_stock true st pid d rsn).1 := by
  have hcond : ¬ p.stock_quantity + d < 0 := by omega
  have h2 := findProduct_updateStockRows (p.stock_quantity + d) hp
  refine ⟨?_, ?_, ?_, ?_⟩
  · simp only [update_stock, get_product, hp, viewOf_stock]
    rw [if_neg hcond]
  · simp only [update_stock, get_product, hp, viewOf_stock]
    rw [if_neg hcond]
    simpa [log_stock_movement, updateStockRows, findProduct] using h2
  · simp only [update_stock, get_product, hp, viewOf_stock]
    rw [if_neg hcond]
    simp [log_stock_movement, updateStockRows]
  · simp only [update_stock, get_product, hp, viewOf_stock]
    rw [if_neg hcond, if_neg hcond]

theorem c7_audit_failure_silent_witness :
    (update_stock false sampleDB "P" 5 "restock").1 = .ok "P" 10 15 5 ∧
    (update_stock false sampleDB "P" 5 "restock").2.stock_movements = [] :=
  ⟨(c7_audit_failure_silent sampleDB "P" sampleProduct 5 "restock"
      (by decide) (by decide)).1,
   (c7_audit_failure_silent sampleDB "P" sampleProduct 5 "restock"
      (by decide) (by decide)).2.2.1⟩

/-- Marking a reservation released commutes with the keyed read: the read
returns the row with its status replaced. -/
theorem find?_reservation_released {l : List Reservation} {rid : Nat}
    {r : Reservation} (hr : l.find? (fun x => x.id == rid) = some r) :
    (l.map (fun q => if q.id == rid then { q with status := "released" } else q)).find?
        (fun x => x.id == rid) = some { r with status := "released" } := by
  have hkey : ∀ a : Reservation,
      (((if a.id == rid then { a with status := "released" } else a)).id == rid)
        = (a.id == rid) := by
    intro a; split <;> rfl
  rw [find?_map_comm _ _ hkey, hr, Option.map_some']
  have hfound := List.find?_some hr
  simp only at hfound
  simp [hfound]

/-- C6, confirmed.  `release_reservation` fails with a not-found error for an
unknown reservation id; fails with the already-released conflict when the
reservation's status is not "active" (leaving all state unchanged); fails
with a not-found error when the referenced product no longer exists (leaving
all state unchanged); and on an active reservation whose product exists it
succeeds, sets the product's `reserved_quantity` to
`max 0 (reserved_quantity - reservation.quantity)` — a decrease by exactly
the reservation's quantity, floored at zero — marks the reservation
"released", and a second release of the same reservation then fails with the
conflict error, changing nothing. -/
theorem c6_release_reservation (st : DB) (rid : Nat) :
    (findReservation st rid = none →
      release_reservation st rid = (.reservationNotFound, st)) ∧
    (∀ r, findReservation st rid = some r → r.status ≠ "active" →
      release_reservation st rid = (.alreadyReleased, st)) ∧
    (∀ r, findReservation st rid = some r → r.status = "active" →
      findProduct st r.product_id = none →
      release_reservation st rid = (.productNotFound, st)) ∧
    (∀ r p, findReservation st rid = some r → r.status = "active" →
      findProduct st r.product_id = some p →
      (release_reservation st rid).1 = .ok ∧
      findProduct (release_reservation st rid).2 r.product_id =
        some { p with reserved_quantity := max 0 (p.reserved_quantity - r.quantity) } ∧
      findReservation (release_reservation st rid).2 rid =
        some { r with status := "released" } ∧
      (release_reservation st rid).2.stock_movements = st.stock_movements ∧
      release_reservation (release_reservation st rid).2 rid =
        (.alreadyReleased, (release_reservation st rid).2)) := by
  refine ⟨?_, ?_, ?_, ?_⟩
  · intro h
    simp only [release_reservation, h]
  · intro r hr hs
    simp only [release_reservation, hr]
    rw [if_pos (bne_iff_ne.mpr hs)]
  · intro r hr hs hfp
    have hcond : ¬ ((r.status != "active") = true) := by simp [hs]
    simp only [release_reservation, hr]
    rw [if_neg hcond]
    simp only [hfp]
  · intro r p hr hs hfp
    have hcond : ¬ ((r.status != "active") = true) := by simp [hs]
    have h2 := findProduct_updateReservedRows (max 0 (p.reserved_quantity - r.quantity)) hfp
    have hr' : st.reservations.find? (fun x => x.id == rid) = some r := hr
    have hres := find?_reservation_released hr'
    refine ⟨?_, ?_, ?_, ?_, ?_⟩
    · simp only [release_reservation, hr]
      rw [if_neg hcond]
      simp only [hfp]
    · simp only [release_reservation, hr]
      rw [if_neg hcond]
      simp only [hfp]
      simpa [findProduct, updateReservedRows] using h2
    · simp only [release_reservation, hr]
      rw [if_neg hcond]
      simp only [hfp]
      simpa [findReservation, updateReservedRows] using hres
    · simp only [release_reservation, hr]
      rw [if_neg hcond]
      simp only [hfp]
      simp [updateReservedRows]
    · have hfound : findReservation (release_reservation st rid).2 rid =
          some { r with status := "released" } := by
        simp only [release_reservation, hr]
        rw [if_neg hcond]
        simp only [hfp]
        simpa [findReservation, updateReservedRows] using hres
      have hsecond : ∀ st2 : DB,
          findReservation st2 rid = some { r with status := "released" } →
          release_reservation st2 rid = (.alreadyReleased, st2) := by
        intro st2 hx
        have hbne : (({ r with status := "released" } : Reservation).status
            != "active") = true := rfl
        simp only [release_reservation, hx]
        rw [if_pos hbne]
      exact hsecond _ hfound

theorem c6_release_reservation_witness :
    (release_reservation reservedDB 7).1 = .ok ∧
    findProduct (release_reservation reservedDB 7).2 "P" =
      some { sampleProduct with reserved_quantity := 0 } ∧
    release_reservation (release_reservation reservedDB 7).2 7 =
      (.alreadyReleased, (release_reservation reservedDB 7).2) ∧
    release_reservation reservedDB 99 = (.reservationNotFound, reservedDB) := by
  have h := (c6_release_reservation reservedDB 7).2.2.2 sampleReservation
    { sampleProduct with reserved_quantity := 4 } (by decide) (by decide) (by decide)
  have hnone := (c6_release_reservation reservedDB 99).1 (by decide)
  exact ⟨h.1, h.2.1, h.2.2.2.2, hnone⟩

/-- C8's filter condition, formalized from the claim's words: active products
whose name case-insensitively contains the term (if one is given), whose
category equals the given category (if one is given), and — when
`in_stock_only` — whose raw `stock_quantity` is positive. -/
def claimSearchPred (term category : Option String) (in_stock_only : Bool)
    (p : Product) : Bool :=
  (match term with
    | none => true
    | some t => nameMatchesCI p.name t) &&
  (match category with
    | none => true
    | some c => p.category == c) &&
  (if in_stock_only then decide (0 < p.stock_quantity) else true) &&
  p.is_active

/-- The filter condition after the amendment the counterexample forces: an
empty-string argument is treated like an absent one (Python truthiness);
everything else is as the claim states. -/
def amendedSearchPred (term category : Option String) (in_stock_only : Bool)
    (p : Product) : Bool :=
  (match term with
    | none => true
    | some t => if t.isEmpty then true else nameMatchesCI p.name t) &&
  (match category with
    | none => true
    | some c => if c.isEmpty then true else p.category == c) &&
  (if in_stock_only then decide (0 < p.stock_quantity) else true) &&
  p.is_active

/-- C8, counterexample.  With `category` given as the empty string, the code
skips the category filter entirely (Python truthiness), so a product whose
category is "tools" is returned even though it does not satisfy the claim's
"category equals the given category" condition: the returned list differs
from the claim's filter. -/
theorem c8_counterexample :
    search_products sampleDB none (some "") false = [summaryOf sampleProduct] ∧
    sampleDB.inventory.filter (claimSearchPred none (some "") false) = [] := by
  decide

/-- C8, corrected.  For every combination of arguments, `search_products`
returns exactly the active products passing the claim's three filters, with
the amendment that an empty-string term or category argument is ignored like
an absent one.  The operation is total: when nothing matches it returns the
empty list rather than failing. -/
theorem c8_search_products (st : DB) (term category : Option String)
    (io : Bool) :
    search_products st term category io =
      (st.inventory.filter (amendedSearchPred term category io)).map summaryOf := by
  unfold search_products
  congr 1
  apply List.filter_congr
  intro p _
  unfold amendedSearchPred
  cases term with
  | none =>
    cases category with
    | none => simp [truthy]
    | some c =>
      by_cases hc : c.isEmpty <;> simp [truthy, hc, Option.getD]
  | some t =>
    cases category with
    | none =>
      by_cases ht : t.isEmpty <;> simp [truthy, ht, Option.getD]
    | some c =>
      by_cases ht : t.isEmpty <;> by_cases hc : c.isEmpty <;>
        simp [truthy, ht, hc, Option.getD]

/-- Helper: filtering then keeping the rows satisfying a decidable condition
(as `filterMap` of an if) is a filter of the conjunction followed by a map. -/
theorem filterMap_if_eq_filter_map {α β : Type} (c : α → Prop) [DecidablePred c]
    (act : α → Bool) (f : α → β) (l : List α) :
    (l.filter act).filterMap (fun a => if c a then some (f a) else none) =
      (l.filter (fun a => act a && decide (c a))).map f := by
  induction l with
  | nil => rfl
  | cons a as ih =>
    by_cases ha : act a = true
    · by_cases hc : c a
      · simp [List.filter_cons, List.filterMap_cons, ha, hc, ih]
      · simp [List.filter_cons, List.filterMap_cons, ha, hc, ih]
    · simp [List.filter_cons, ha, ih]

/-- Helper: the low-stock scan (filter the active rows, keep those at or
below threshold) equals a filter-then-map. -/
theorem low_stock_filterMap (l : List Product) :
    (l.filter (fun p => p.is_active)).filterMap (fun p =>
        if p.stock_quantity - p.reserved_quantity ≤ p.low_stock_threshold then
          some (lowStockEntryOf p)
        else none) =
      (l.filter (fun p => p.is_active &&
          decide (p.stock_quantity - p.reserved_quantity ≤ p.low_stock_threshold))).map
        lowStockEntryOf :=
  filterMap_if_eq_filter_map
    (fun p => p.stock_quantity - p.reserved_quantity ≤ p.low_stock_threshold)
    (fun p => p.is_active) lowStockEntryOf l

/-- C9, confirmed.  For an existing product, `get_product` succeeds and
returns the record with `available_quantity = stock_quantity -
reserved_quantity`, `is_in_stock = (available_quantity > 0)` and
`is_low_stock = (available_quantity ≤ low_stock_threshold)`; for an absent id
it fails with the not-found error; and `get_low_stock_products` returns
exactly the active products with `available_quantity ≤ low_stock_threshold`,
each carried as id, name, available quantity and threshold. -/
theorem c9_get_product_low_stock (st : DB) (pid : String) :
    (∀ p, findProduct st pid = some p →
      get_product st pid = .ok
        { product_id := p.product_id, name := p.name,
          description := p.description, price := p.price,
          category := p.category, stock_quantity := p.stock_quantity,
          reserved_quantity := p.reserved_quantity,
          available_quantity := p.stock_quantity - p.reserved_quantity,
          is_in_stock := decide (0 < p.stock_quantity - p.reserved_quantity),
          is_low_stock := decide (p.stock_quantity - p.reserved_quantity ≤
            p.low_stock_threshold),
          low_stock_threshold := p.low_stock_threshold,
          is_active := p.is_active }) ∧
    (findProduct st pid = none → get_product st pid = .notFound) ∧
    get_low_stock_products st =
      (st.inventory.filter (fun p => p.is_active &&
          decide (p.stock_quantity - p.reserved_quantity ≤ p.low_stock_threshold))).map
        lowStockEntryOf := by
  refine ⟨?_, ?_, ?_⟩
  · intro p hp
    simp only [get_product, hp]
    rfl
  · intro h
    simp only [get_product, h]
  · exact low_stock_filterMap st.inventory

theorem c9_get_product_low_stock_witness :
    get_product sampleDB "P" = .ok (viewOf sampleProduct) ∧
    get_product sampleDB "ZZ" = .notFound ∧
    get_low_stock_products inactiveDB = [] := by
  obtain ⟨h1, -, -⟩ := c9_get_product_low_stock sampleDB "P"
  obtain ⟨-, g2, -⟩ := c9_get_product_low_stock sampleDB "ZZ"
  obtain ⟨-, -, k3⟩ := c9_get_product_low_stock inactiveDB "Q"
  refine ⟨h1 sampleProduct (by decide), g2 (by decide), ?_⟩
  rw [k3]
  decide

/-- C10, confirmed.  A deactivated product (`is_active = false`) is not hidden
from direct operations: `get_product` still succeeds and returns the full
record with derived fields (including `is_active = false`), and neither
`update_stock` nor `reserve_stock` fails with the not-found error for it.
The active flag only filters the scans: when the product is the only row
carrying its id, no summary returned by `search_products` (for any argument
combination) and no entry of `get_low_stock_products` carries its id. -/
theorem c10_inactive_not_hidden (st : DB) (pid : String) (p : Product)
    (d q : Int) (rsn cust : String) (now : Nat) (term category : Option String)
    (io : Bool) (hp : findProduct st pid = some p) (hin : p.is_active = false)
    (huniq : st.inventory.filter (fun a => a.product_id == pid) = [p]) :
    get_product st pid = .ok (viewOf p) ∧
    (update_stock true st pid d rsn).1 ≠ .productNotFound ∧
    (reserve_stock now st pid q cust).1 ≠ .productNotFound ∧
    (∀ s ∈ search_products st term category io, s.product_id ≠ pid) ∧
    (∀ e ∈ get_low_stock_products st, e.product_id ≠ pid) := by
  have hkeyed : ∀ a : Product, a ∈ st.inventory → a.product_id = pid → a = p := by
    intro a hmem hkey
    have hmemf : a ∈ st.inventory.filter (fun b => b.product_id == pid) :=
      List.mem_filter.2 ⟨hmem, by simp [hkey]⟩
    rw [huniq] at hmemf
    simpa using hmemf
  refine ⟨?_, ?_, ?_, ?_, ?_⟩
  · simp only [get_product, hp]
  · simp only [update_stock, get_product, hp]
    split <;> simp
  · simp only [reserve_stock, get_product, hp]
    split <;> simp
  · intro s hs
    unfold search_products at hs
    rcases List.mem_map.1 hs with ⟨a, ha, rfl⟩
    have hmem := (List.mem_filter.1 ha).1
    have hpred := (List.mem_filter.1 ha).2
    simp only [Bool.and_eq_true] at hpred
    have hact : a.is_active = true := hpred.2
    intro hcontra
    have hkey : a.product_id = pid := by simpa [summaryOf] using hcontra
    have haeq := hkeyed a hmem hkey
    rw [haeq, hin] at hact
    exact Bool.false_ne_true hact
  · intro e he
    unfold get_low_stock_products at he
    rcases List.mem_filterMap.1 he with ⟨a, ha, hfa⟩
    have hmem := (List.mem_filter.1 ha).1
    have hact : a.is_active = true := (List.mem_filter.1 ha).2
    intro hcontra
    have hkey : a.product_id = pid := by
      rcases Decidable.em
          (a.stock_quantity - a.reserved_quantity ≤ a.low_stock_threshold) with hth | hth
      · rw [if_pos hth] at hfa
        cases hfa
        simpa [lowStockEntryOf] using hcontra
      · rw [if_neg hth] at hfa
        exact absurd hfa (by simp)
    have haeq := hkeyed a hmem hkey
    rw [haeq, hin] at hact
    exact Bool.false_ne_true hact

theorem c10_inactive_not_hidden_witness :
    get_product inactiveDB "Q" = .ok (viewOf inactiveProduct) ∧
    (update_stock true inactiveDB "Q" 1 "restock").1 ≠ .productNotFound ∧
    (reserve_stock 0 inactiveDB "Q" 1 "C").1 ≠ .productNotFound := by
  have h := c10_inactive_not_hidden inactiveDB "Q" inactiveProduct 1 1
    "restock" "C" 0 none none false (by decide) (by decide) (by decide)
  exact ⟨h.1, h.2.1, h.2.2.1⟩

end Ledger
